import Mathlib

/-!
Verification of the Aimtrainer behavioural core against its source.

Shallow embedding of the game's logic from `src/config.js`, `src/weapon.js`,
`src/target.js` and `src/game.js` (the 2D-canvas variants, whose line numbers
the claims reference).  JavaScript numbers are modelled as rationals (`ℚ`);
`performance.now()` readings are passed in explicitly as a `now : ℚ`
parameter (milliseconds), and frame deltas as `dt : ℚ` (seconds), exactly as
the source consumes them.  `Math.random()` draws that feed gameplay (spawn
positions, spread samples) are passed in as explicit parameters; values that
are written but never read by any game logic (the cosmetic `swingAngle`
sinusoid and the random swing seeds) are omitted, since `Math.sin` is
transcendental and no claim nor any hit/score path reads them.
-/

/-! ## Constants from `src/config.js` (`GAME_CONFIG`) -/

/-- `Math.min` on rationals.  (Stated as an `if` so that concrete instances
reduce inside the kernel; `jsMin_eq` bridges to Mathlib's `min`.) -/
def jsMin (a b : ℚ) : ℚ := if a ≤ b then a else b

/-- `Math.max` on rationals. -/
def jsMax (a b : ℚ) : ℚ := if a ≤ b then b else a

theorem jsMin_eq (a b : ℚ) : jsMin a b = min a b := (min_def a b).symm

theorem jsMax_eq (a b : ℚ) : jsMax a b = max a b := by
  unfold jsMax
  rcases le_or_lt a b with h | h
  · simp [h, max_eq_right h]
  · simp [not_le.2 h, max_eq_left h.le]

def FIRE_RATE_MS : ℚ := 150
def RECOIL_KICK : ℚ := 15
def RECOIL_MAX : ℚ := 80
def RECOIL_RECOVERY : ℚ := 60
def SPREAD_BASE : ℚ := 0
def SPREAD_PER_SHOT : ℚ := 8
def SPREAD_MAX : ℚ := 40
def SPREAD_RECOVERY : ℚ := 25
def RAPID_FIRE_WINDOW_MS : ℚ := 500
def RAPID_FIRE_MULTIPLIER_INC : ℚ := 3/20
def RAPID_FIRE_MULTIPLIER_MAX : ℚ := 2

def TARGET_BASE_SIZE : ℚ := 80
def TARGET_MICRO_SIZE : ℚ := 40
def TARGET_RESET_DELAY : ℚ := 4/5
def TARGET_FALL_ACCEL : ℚ := 180
def PEEK_GLOW_MS : ℚ := 500
def PEEK_EXPOSE_S : ℚ := 2
def PEEK_REST_S : ℚ := 3/2
def PEEK_RISE_SPEED : ℚ := 2
def PEEK_DROP_SPEED : ℚ := 5/2
def PEEK_HIDDEN_Y : ℚ := -4/5
def STRAFE_BOUNDS_MIN : ℚ := -4/5
def STRAFE_BOUNDS_MAX : ℚ := 4/5

def CAMERA_PERSPECTIVE_SCALE : ℚ := 19/20
def FOG_NEAR : ℚ := 1/2
def FOG_FAR : ℚ := 1

def FLICK_SPAWN_DELAY_S : ℚ := 3/10
def FLICK_SPAWN_RADIUS : ℚ := 7/10
def FLICK_DISTANCES : List ℚ := [2/5, 1/2, 3/5, 7/10]

/-! ## Weapon (`src/weapon.js`)

State of `class Weapon`: the nested JS objects `recoil = {current, multiplier}`
and `spread = {current}` are flattened into `recoilCurrent`,
`recoilMultiplier`, `spreadCurrent`.  The random spread offset returned by
`fire()` (`{x: cos(angle)*dist, y: sin(angle)*dist}`, consumed only as a shot
deviation) is not part of the weapon state and is not modelled here; all
claims concern the state effects.
-/

structure Weapon where
  recoilCurrent : ℚ
  recoilMultiplier : ℚ
  spreadCurrent : ℚ
  lastShotMs : ℚ
  recentShots : List ℚ
deriving DecidableEq

/-- `new Weapon()` (src/weapon.js constructor). -/
def Weapon.init : Weapon :=
  { recoilCurrent := 0, recoilMultiplier := 1, spreadCurrent := SPREAD_BASE,
    lastShotMs := 0, recentShots := [] }

/-- `Weapon.reset()`: zeroes recoil/spread/multiplier and the timestamp
window.  (`_lastShotMs` is untouched by the source's `reset`.) -/
def Weapon.reset (w : Weapon) : Weapon :=
  { w with recoilCurrent := 0, recoilMultiplier := 1,
           spreadCurrent := SPREAD_BASE, recentShots := [] }

/-- The rapid-fire multiplier expression in `Weapon.fire`:
`Math.min(1 + (len - 2) * MULTIPLIER_INC, MULTIPLIER_MAX)` where `len` is
`this._recentShots.length` after the push. -/
def multFormula (n : ℕ) : ℚ :=
  jsMin (1 + ((n : ℚ) - 2) * RAPID_FIRE_MULTIPLIER_INC) RAPID_FIRE_MULTIPLIER_MAX

/-- The multiplier after `Weapon.fire`'s `if (this._recentShots.length > 2)`
block, where the length is taken after `push(now)`. -/
def fireMult (w : Weapon) (now : ℚ) : ℚ :=
  if 2 < (w.recentShots ++ [now]).length then multFormula (w.recentShots ++ [now]).length
  else w.recoilMultiplier

/-- `Weapon.fire()` state effects (src/weapon.js lines 36–63): push `now`,
stamp `_lastShotMs`, recompute the multiplier when more than 2 timestamps are
stored, apply clamped recoil kick and spread increment. -/
def Weapon.fire (w : Weapon) (now : ℚ) : Weapon :=
  { recentShots := w.recentShots ++ [now],
    lastShotMs := now,
    recoilMultiplier := fireMult w now,
    recoilCurrent := jsMin (w.recoilCurrent + RECOIL_KICK * fireMult w now) RECOIL_MAX,
    spreadCurrent := jsMin (w.spreadCurrent + SPREAD_PER_SHOT * fireMult w now) SPREAD_MAX }

/-- The pruned rapid-fire window of `Weapon.update`:
`this._recentShots.filter(t => now - t < C.RAPID_FIRE.WINDOW_MS)`. -/
def prunedShots (w : Weapon) (now : ℚ) : List ℚ :=
  w.recentShots.filter (fun t => now - t < RAPID_FIRE_WINDOW_MS)

/-- `Weapon.update(dt)` (src/weapon.js lines 18–31): recover recoil and
spread, prune timestamps older than the window, reset the multiplier when
at most 2 remain. -/
def Weapon.update (w : Weapon) (dt now : ℚ) : Weapon :=
  { w with
    recoilCurrent := jsMax 0 (w.recoilCurrent - RECOIL_RECOVERY * dt),
    spreadCurrent := jsMax SPREAD_BASE (w.spreadCurrent - SPREAD_RECOVERY * dt),
    recentShots := prunedShots w now,
    recoilMultiplier := if (prunedShots w now).length ≤ 2 then 1 else w.recoilMultiplier }

/-- `Weapon.canFire()` (src/weapon.js line 65–67). -/
def Weapon.canFire (w : Weapon) (now : ℚ) : Bool :=
  FIRE_RATE_MS ≤ now - w.lastShotMs

/-- The weapon-state effect of `InputHandler._fire` (src/input.js lines
72–90): the fire-rate gate `if (!this.game.weapon.canFire()) return;` guards
the call to `weapon.fire()`. -/
def inputFire (w : Weapon) (now : ℚ) : Weapon :=
  if w.canFire now then w.fire now else w

/-- One call in a `fire()` / `update(dt)` call sequence, with its
`performance.now()` reading. -/
inductive WOp where
  | fire (now : ℚ)
  | upd (dt now : ℚ)
deriving DecidableEq

def WOp.dtOk : WOp → Prop
  | .fire _ => True
  | .upd dt _ => 0 ≤ dt

instance : DecidablePred WOp.dtOk := fun op =>
  match op with
  | .fire _ => inferInstanceAs (Decidable True)
  | .upd dt _ => inferInstanceAs (Decidable (0 ≤ dt))

def Weapon.step (w : Weapon) : WOp → Weapon
  | .fire now => w.fire now
  | .upd dt now => w.update dt now

def Weapon.run (w : Weapon) (ops : List WOp) : Weapon :=
  ops.foldl Weapon.step w

/-- The claimed bounds on the weapon state. -/
def WeaponInv (w : Weapon) : Prop :=
  (0 ≤ w.recoilCurrent ∧ w.recoilCurrent ≤ RECOIL_MAX) ∧
  (SPREAD_BASE ≤ w.spreadCurrent ∧ w.spreadCurrent ≤ SPREAD_MAX) ∧
  (1 ≤ w.recoilMultiplier ∧ w.recoilMultiplier ≤ RAPID_FIRE_MULTIPLIER_MAX)

instance : DecidablePred WeaponInv := fun w =>
  inferInstanceAs (Decidable (((0:ℚ) ≤ w.recoilCurrent ∧ w.recoilCurrent ≤ RECOIL_MAX) ∧
    (SPREAD_BASE ≤ w.spreadCurrent ∧ w.spreadCurrent ≤ SPREAD_MAX) ∧
    ((1:ℚ) ≤ w.recoilMultiplier ∧ w.recoilMultiplier ≤ RAPID_FIRE_MULTIPLIER_MAX)))

/-! ### Weapon lemmas -/

theorem multFormula_ge_one (n : ℕ) (h : 2 < n) : 1 ≤ multFormula n := by
  have hn : (2:ℚ) < (n:ℚ) := by exact_mod_cast h
  unfold multFormula RAPID_FIRE_MULTIPLIER_INC RAPID_FIRE_MULTIPLIER_MAX
  rw [jsMin_eq]
  refine le_min (by nlinarith) (by norm_num)

theorem multFormula_le_max (n : ℕ) : multFormula n ≤ RAPID_FIRE_MULTIPLIER_MAX := by
  unfold multFormula
  rw [jsMin_eq]
  exact min_le_right _ _

theorem fireMult_bounds (w : Weapon) (now : ℚ)
    (hm : 1 ≤ w.recoilMultiplier) (hM : w.recoilMultiplier ≤ RAPID_FIRE_MULTIPLIER_MAX) :
    1 ≤ fireMult w now ∧ fireMult w now ≤ RAPID_FIRE_MULTIPLIER_MAX := by
  unfold fireMult
  split
  · exact ⟨multFormula_ge_one _ (by assumption), multFormula_le_max _⟩
  · exact ⟨hm, hM⟩

theorem weaponInv_fire (w : Weapon) (now : ℚ) (hw : WeaponInv w) :
    WeaponInv (w.fire now) := by
  obtain ⟨⟨hr0, hr1⟩, ⟨hs0, hs1⟩, hm, hM⟩ := hw
  obtain ⟨hf1, hf2⟩ := fireMult_bounds w now hm hM
  refine ⟨⟨?_, ?_⟩, ⟨?_, ?_⟩, hf1, hf2⟩ <;>
    simp only [Weapon.fire, jsMin_eq, RECOIL_KICK, RECOIL_MAX, SPREAD_PER_SHOT, SPREAD_MAX,
      SPREAD_BASE] at *
  · exact le_min (by nlinarith) (by norm_num)
  · exact min_le_right _ _
  · exact le_min (by nlinarith) (by norm_num)
  · exact min_le_right _ _

theorem weaponInv_update (w : Weapon) (dt now : ℚ) (hw : WeaponInv w) (hdt : 0 ≤ dt) :
    WeaponInv (w.update dt now) := by
  obtain ⟨⟨hr0, hr1⟩, ⟨hs0, hs1⟩, hm, hM⟩ := hw
  have h60 : (0:ℚ) ≤ RECOIL_RECOVERY * dt := by unfold RECOIL_RECOVERY; positivity
  have h25 : (0:ℚ) ≤ SPREAD_RECOVERY * dt := by unfold SPREAD_RECOVERY; positivity
  refine ⟨⟨?_, ?_⟩, ⟨?_, ?_⟩, ?_, ?_⟩ <;>
    simp only [Weapon.update, jsMax_eq, RECOIL_MAX, SPREAD_MAX, SPREAD_BASE,
      RAPID_FIRE_MULTIPLIER_MAX] at *
  · exact le_max_left _ _
  · exact max_le (by norm_num) (by linarith)
  · exact le_max_left _ _
  · exact max_le (by norm_num) (by linarith)
  · split
    · norm_num
    · exact hm
  · split
    · norm_num
    · exact hM

theorem weaponInv_step (w : Weapon) (op : WOp) (hw : WeaponInv w) (hop : op.dtOk) :
    WeaponInv (w.step op) := by
  cases op with
  | fire now => exact weaponInv_fire w now hw
  | upd dt now => exact weaponInv_update w dt now hw hop

theorem weaponInv_run (w : Weapon) (ops : List WOp) (hw : WeaponInv w)
    (h : ∀ op ∈ ops, op.dtOk) : WeaponInv (w.run ops) := by
  induction ops generalizing w with
  | nil => exact hw
  | cons op rest ih =>
      exact ih _ (weaponInv_step w op hw (h op (by simp)))
        (fun o ho => h o (by simp [ho]))

theorem weaponInv_reset (w : Weapon) : WeaponInv w.reset := by
  refine ⟨⟨?_, ?_⟩, ⟨?_, ?_⟩, ?_, ?_⟩ <;>
    norm_num [Weapon.reset, SPREAD_BASE, SPREAD_MAX, RECOIL_MAX, RAPID_FIRE_MULTIPLIER_MAX]

/-- C2: the full claim, stated over every `fire()`/`update(dt)` call sequence
from the reset state. -/
def C2Prop : Prop :=
  (∀ (w₀ : Weapon) (ops : List WOp), (∀ op ∈ ops, op.dtOk) →
     WeaponInv ((w₀.reset).run ops)) ∧
  (∀ (w : Weapon) (now : ℚ), WeaponInv w →
     w.recoilCurrent ≤ (w.fire now).recoilCurrent ∧
     w.spreadCurrent ≤ (w.fire now).spreadCurrent) ∧
  (∀ (w : Weapon) (dt now : ℚ), WeaponInv w → 0 ≤ dt →
     (w.update dt now).recoilCurrent ≤ w.recoilCurrent ∧
     (w.update dt now).spreadCurrent ≤ w.spreadCurrent)

/-- C2: for every sequence of `Weapon.fire()` and
`Weapon.update(dt)` calls with `dt ≥ 0` starting from the reset state,
`recoil.current` stays in `[0, RECOIL.MAX]` and `spread.current` stays in
`[SPREAD.BASE, SPREAD.MAX]` after every call; `fire()` only increases them
(clamped above at the maxima) and `update(dt)` only decays them (clamped
below at `0` / `SPREAD.BASE`). -/
theorem c2_weapon_bounds : C2Prop := by
  refine ⟨?_, ?_, ?_⟩
  · intro w₀ ops h
    exact weaponInv_run _ ops (weaponInv_reset w₀) h
  · intro w now hw
    obtain ⟨⟨hr0, hr1⟩, ⟨hs0, hs1⟩, hm, hM⟩ := hw
    obtain ⟨hf1, hf2⟩ := fireMult_bounds w now hm hM
    constructor <;>
      simp only [Weapon.fire, jsMin_eq, RECOIL_KICK, RECOIL_MAX, SPREAD_PER_SHOT,
        SPREAD_MAX, SPREAD_BASE] at *
    · exact le_min (by nlinarith) (by linarith)
    · exact le_min (by nlinarith) (by linarith)
  · intro w dt now hw hdt
    obtain ⟨⟨hr0, hr1⟩, ⟨hs0, hs1⟩, hm, hM⟩ := hw
    have h60 : (0:ℚ) ≤ RECOIL_RECOVERY * dt := by
      unfold RECOIL_RECOVERY; positivity
    have h25 : (0:ℚ) ≤ SPREAD_RECOVERY * dt := by
      unfold SPREAD_RECOVERY; positivity
    constructor <;>
      simp only [Weapon.update, jsMax_eq, SPREAD_BASE] at *
    · exact max_le hr0 (by linarith)
    · exact max_le hs0 (by linarith)

/-- Closed witness for C2: a concrete `fire`/`update` sequence obeying the
bounds, obtained from `c2_weapon_bounds`. -/
theorem c2_witness :
    WeaponInv ((Weapon.init.reset).run [.fire 0, .fire 100, .fire 200, .upd (1/10) 300]) :=
  c2_weapon_bounds.1 Weapon.init [.fire 0, .fire 100, .fire 200, .upd (1/10) 300]
    (by intro op hop; fin_cases hop <;> norm_num [WOp.dtOk])

/-! ### C3: rapid-fire multiplier -/

/-- The number of stored shot timestamps lying inside the rapid-fire window
at time `now` — the quantity the claim's `shotsInWindow` denotes. -/
def shotsInWindow (w : Weapon) (now : ℚ) : ℕ :=
  (w.recentShots.filter (fun t => now - t < RAPID_FIRE_WINDOW_MS)).length

/-- C3 (counterexample): fire at 0, 600, 610, 620, 630 ms with no intervening
`update`.  At the 630 ms shot, 4 > 2 timestamps fall within the 500 ms window,
so the claim predicts `min(1 + (4-2)*0.15, 2) = 1.3`; the code instead uses
the unpruned list length 5 and sets the multiplier to 1.45. -/
theorem c3_counterexample :
    shotsInWindow ((((Weapon.init.fire 0).fire 600).fire 610).fire 620) 630 + 1 = 4 ∧
    2 < 4 ∧
    multFormula 4 = 13/10 ∧
    (((((Weapon.init.fire 0).fire 600).fire 610).fire 620).fire 630).recoilMultiplier = 29/20 ∧
    (29/20 : ℚ) ≠ 13/10 := by
  refine ⟨?_, by norm_num, ?_, ?_, by norm_num⟩ <;>
    norm_num [shotsInWindow, Weapon.init, Weapon.fire, fireMult, multFormula, jsMin,
      RAPID_FIRE_WINDOW_MS, RAPID_FIRE_MULTIPLIER_INC, RAPID_FIRE_MULTIPLIER_MAX,
      RECOIL_KICK, RECOIL_MAX, SPREAD_PER_SHOT, SPREAD_MAX, SPREAD_BASE,
      List.filter]

/-- C3 (amended): `fire()` computes the multiplier from the length of the
stored `_recentShots` list after the push (the list is pruned to the window
only by `update(dt)`); when every stored timestamp lies in the window at the
moment of firing the stored length coincides with the claim's
`shotsInWindow`; the formula is nondecreasing in the shot count and strictly
increasing while below `MULTIPLIER_MAX`; and any `update(dt)` that leaves at
most 2 timestamps resets the multiplier to 1. -/
theorem c3_rapid_fire :
    (∀ (w : Weapon) (now : ℚ), 2 < w.recentShots.length + 1 →
       (w.fire now).recoilMultiplier = multFormula (w.recentShots.length + 1)) ∧
    (∀ (w : Weapon) (now : ℚ), (∀ t ∈ w.recentShots, now - t < RAPID_FIRE_WINDOW_MS) →
       shotsInWindow (w.fire now) now = w.recentShots.length + 1) ∧
    (∀ n : ℕ, 2 ≤ n → multFormula n ≤ multFormula (n + 1) ∧
       (multFormula n < RAPID_FIRE_MULTIPLIER_MAX → multFormula n < multFormula (n + 1))) ∧
    (∀ (w : Weapon) (dt now : ℚ), (w.update dt now).recentShots.length ≤ 2 →
       (w.update dt now).recoilMultiplier = 1) := by
  refine ⟨?_, ?_, ?_, ?_⟩
  · intro w now h
    have hl : (w.recentShots ++ [now]).length = w.recentShots.length + 1 := by simp
    simp only [Weapon.fire, fireMult, hl, if_pos h]
  · intro w now h
    have h0 : now - now < RAPID_FIRE_WINDOW_MS := by
      norm_num [RAPID_FIRE_WINDOW_MS]
    simp only [shotsInWindow, Weapon.fire, List.filter_append]
    rw [List.filter_eq_self.mpr (by intro a ha; exact decide_eq_true (h a ha))]
    norm_num [List.filter, RAPID_FIRE_WINDOW_MS]
  · intro n hn
    have hc : ((n + 1 : ℕ) : ℚ) = (n : ℚ) + 1 := by push_cast; ring
    constructor
    · unfold multFormula
      rw [jsMin_eq, jsMin_eq, hc]
      exact min_le_min (by unfold RAPID_FIRE_MULTIPLIER_INC; linarith) le_rfl
    · intro hlt
      unfold multFormula RAPID_FIRE_MULTIPLIER_INC RAPID_FIRE_MULTIPLIER_MAX at *
      simp only [jsMin_eq, hc] at *
      have ha : 1 + ((n : ℚ) - 2) * (3/20) < 2 := by
        by_contra hge
        push_neg at hge
        rw [min_eq_right hge] at hlt
        exact lt_irrefl _ hlt
      rw [min_eq_left ha.le]
      exact lt_min (by linarith) ha
  · intro w dt now h
    simp only [Weapon.update] at h ⊢
    exact if_pos h

/-- Closed witness for C3's amended theorem: a third shot inside the window
raises the multiplier to `min(1 + 1·0.15, 2) = 1.15`, and an `update` that
prunes to ≤ 2 shots resets it to 1. -/
theorem c3_witness :
    (((Weapon.init.fire 0).fire 50).fire 100).recoilMultiplier = multFormula 3 ∧
    (((Weapon.init.fire 0).fire 50).update (1/10) 1000).recoilMultiplier = 1 := by
  constructor
  · have h := c3_rapid_fire.1 ((Weapon.init.fire 0).fire 50) 100
      (by norm_num [Weapon.init, Weapon.fire, fireMult])
    rw [h]
    norm_num [Weapon.init, Weapon.fire, fireMult]
  · refine c3_rapid_fire.2.2.2 ((Weapon.init.fire 0).fire 50) (1/10) 1000 ?_
    norm_num [Weapon.init, Weapon.fire, fireMult, Weapon.update, prunedShots,
      RAPID_FIRE_WINDOW_MS, List.filter]

/-! ### C9: fire-rate gate -/

/-- C9 (counterexample): `Weapon.fire()` itself is not gated.  With the last
shot at 0 ms, a second `fire()` at 100 ms (before the 150 ms cooldown) still
kicks recoil from 15 to 30. -/
theorem c9_counterexample :
    (Weapon.init.fire 0).canFire 100 = false ∧
    (Weapon.init.fire 0).recoilCurrent = 15 ∧
    ((Weapon.init.fire 0).fire 100).recoilCurrent = 30 := by
  refine ⟨?_, ?_, ?_⟩ <;>
    norm_num [Weapon.init, Weapon.fire, Weapon.canFire, fireMult, multFormula, jsMin,
      FIRE_RATE_MS, RECOIL_KICK, RECOIL_MAX, SPREAD_PER_SHOT, SPREAD_MAX, SPREAD_BASE]

/-- C9 (amended): the cooldown gate lives in the caller.  `InputHandler._fire`
checks `weapon.canFire()` and skips `weapon.fire()` entirely, so a trigger
pull before `FIRE_RATE_MS` has elapsed since the last shot leaves the whole
weapon state (recoil, spread, multiplier, timestamp window) unchanged. -/
theorem c9_gate (w : Weapon) (now : ℚ) (h : now - w.lastShotMs < FIRE_RATE_MS) :
    inputFire w now = w ∧ w.canFire now = false := by
  have hc : w.canFire now = false := by
    simp only [Weapon.canFire, decide_eq_false_iff_not, not_le]
    exact h
  exact ⟨by simp [inputFire, hc], hc⟩

/-- Closed witness for C9's amended theorem: at 100 ms after a shot at 0 ms
the gated fire path is a no-op. -/
theorem c9_witness :
    inputFire (Weapon.init.fire 0) 100 = Weapon.init.fire 0 ∧
    (Weapon.init.fire 0).canFire 100 = false :=
  c9_gate (Weapon.init.fire 0) 100
    (by norm_num [Weapon.init, Weapon.fire, FIRE_RATE_MS])

/-! ## Targets (`src/target.js`) and screen projection (`src/game.js`)

`class Target` state.  The cosmetic idle-swing fields (`swingAngle` and the
random `swingSpeed`/`swingAmp`/`swingPhase` seeds) are omitted: `swingAngle`
is written from `Math.sin` (transcendental) and read by nothing but the
canvas-drawing code.  The random strafe speed/direction drawn in the
constructor are passed in as explicit parameters.
-/

inductive TargetType where
  | static | strafe | peek | micro
deriving DecidableEq

inductive PeekPhase where
  | hidden | rising | exposed | dropping
deriving DecidableEq

structure StrafeState where
  active : Bool
  speed : ℚ
  dir : ℚ
  originX : ℚ
deriving DecidableEq

structure PeekState where
  active : Bool
  phase : PeekPhase
  hiddenFor : ℚ
  upFor : ℚ
deriving DecidableEq

structure ReactionState where
  glowStart : ℚ
  activeAt : ℚ
  isGlowing : Bool
deriving DecidableEq

structure Target where
  worldX : ℚ
  worldY : ℚ
  distance : ℚ
  type : TargetType
  baseSize : ℚ
  isFalling : Bool
  fallAngle : ℚ
  fallVel : ℚ
  fallTimer : ℚ
  impactFlash : ℚ
  strafe : StrafeState
  peek : PeekState
  reaction : ReactionState
  isActive : Bool
  isHit : Bool
deriving DecidableEq

/-- `new Target(worldX, worldY, distance, type)` (src/target.js constructor).
`strafeSpeed`/`strafeDir` stand for the `_rand(...)` / coin-flip draws; for a
peek target `_initPeek` overwrites `worldY` with `HIDDEN_Y` and the target
starts inactive. -/
def mkTarget (wx wy d : ℚ) (ty : TargetType) (strafeSpeed strafeDir : ℚ) : Target :=
  { worldX := wx,
    worldY := if ty = .peek then PEEK_HIDDEN_Y else wy,
    distance := d,
    type := ty,
    baseSize := if ty = .micro then TARGET_MICRO_SIZE else TARGET_BASE_SIZE,
    isFalling := false, fallAngle := 0, fallVel := 0, fallTimer := 0, impactFlash := 0,
    strafe := { active := decide (ty = .strafe), speed := strafeSpeed,
                dir := strafeDir, originX := wx },
    peek := if ty = .peek then ⟨true, .hidden, 0, 0⟩ else ⟨false, .hidden, 0, 0⟩,
    reaction := ⟨0, 0, false⟩,
    isActive := decide (ty ≠ .peek),
    isHit := false }

/-- `Target._updateFall(dt)` (src/target.js lines 167–171): the velocity is
incremented first and the updated value drives the angle. -/
def Target.updateFall (t : Target) (dt : ℚ) : Target :=
  { t with
    fallTimer := t.fallTimer + dt,
    fallVel := t.fallVel + TARGET_FALL_ACCEL * dt,
    fallAngle := jsMax (-90) (t.fallAngle - (t.fallVel + TARGET_FALL_ACCEL * dt) * dt) }

/-- The peek part of `Target._updateBehaviour` (src/target.js lines 184–221),
one `switch (this.peek.phase)` dispatch.  `now` is the `performance.now()`
reading (ms) of this frame. -/
def Target.updatePeek (t : Target) (dt now : ℚ) : Target :=
  match t.peek.phase with
  | .hidden =>
      let t := { t with isActive := false }
      let hf := t.peek.hiddenFor + dt
      if PEEK_REST_S ≤ hf then
        { t with peek := { t.peek with phase := .rising, hiddenFor := 0 } }
      else { t with peek := { t.peek with hiddenFor := hf } }
  | .rising =>
      let y := t.worldY + PEEK_RISE_SPEED * dt
      if 0 ≤ y then
        { t with worldY := 0,
                 peek := { t.peek with phase := .exposed, upFor := 0 },
                 reaction := { glowStart := now, activeAt := 0, isGlowing := true },
                 isActive := false }
      else { t with worldY := y }
  | .exposed =>
      let t := { t with peek := { t.peek with upFor := t.peek.upFor + dt } }
      let t :=
        if t.reaction.isGlowing = true ∧ PEEK_GLOW_MS ≤ now - t.reaction.glowStart then
          { t with reaction := { t.reaction with isGlowing := false, activeAt := now },
                   isActive := true }
        else t
      if PEEK_EXPOSE_S ≤ t.peek.upFor then
        { t with peek := { t.peek with phase := .dropping } }
      else t
  | .dropping =>
      let t := { t with isActive := false,
                        reaction := { t.reaction with isGlowing := false } }
      let y := t.worldY - PEEK_DROP_SPEED * dt
      if y ≤ PEEK_HIDDEN_Y then
        { t with worldY := PEEK_HIDDEN_Y, peek := { t.peek with phase := .hidden } }
      else { t with worldY := y }

/-- The strafe part of `Target._updateBehaviour` (src/target.js lines
177–181): advance `worldX`, reverse direction at either bound (two
sequential `if`s, as in the source). -/
def Target.strafeStep (t : Target) (dt : ℚ) : Target :=
  if t.strafe.active = true then
    let x := t.worldX + t.strafe.speed * t.strafe.dir * dt
    let p := if STRAFE_BOUNDS_MAX ≤ x then (STRAFE_BOUNDS_MAX, (-1 : ℚ)) else (x, t.strafe.dir)
    let q := if p.1 ≤ STRAFE_BOUNDS_MIN then (STRAFE_BOUNDS_MIN, (1 : ℚ)) else p
    { t with worldX := q.1, strafe := { t.strafe with dir := q.2 } }
  else t

/-- `Target._updateBehaviour(dt)` (src/target.js lines 173–222): strafe
movement with bound reversal, then the peek state machine. -/
def Target.updateBehaviour (t : Target) (dt now : ℚ) : Target :=
  if (t.strafeStep dt).peek.active = true then (t.strafeStep dt).updatePeek dt now
  else t.strafeStep dt

/-- The impact-flash decay at the end of `Target.update` (src/target.js
lines 57–58). -/
def Target.flashDecay (t : Target) (dt : ℚ) : Target :=
  if 0 < t.impactFlash then { t with impactFlash := jsMax 0 (t.impactFlash - dt * 5) } else t

/-- `Target.update(dt, totalTime)` (src/target.js lines 48–59), less the
cosmetic `swingAngle` assignment: fall physics when falling, behaviour
otherwise, then impact-flash decay. -/
def Target.update (t : Target) (dt now : ℚ) : Target :=
  (if t.isFalling = true then t.updateFall dt else t.updateBehaviour dt now).flashDecay dt

/-- `Target.onHit(isCenterHit)` (src/target.js lines 120–132): returns the
updated target and the reaction time in ms (`0` if not measured). -/
def Target.onHit (t : Target) (isCenter : Bool) (now : ℚ) : Target × ℚ :=
  if t.isFalling = true then (t, 0)
  else
    ({ t with isHit := true, isFalling := true, fallTimer := 0, impactFlash := 1,
              fallVel := if isCenter then 120 else 80 },
     if 0 < t.reaction.activeAt then now - t.reaction.activeAt else 0)

/-- The unconditional field clears at the top of `Target.reset()`
(src/target.js lines 135–141). -/
def Target.resetCore (t : Target) : Target :=
  { t with isHit := false, isFalling := false, fallAngle := 0, fallVel := 0,
           fallTimer := 0, impactFlash := 0, reaction := ⟨0, 0, false⟩ }

/-- The strafe branch of `Target.reset()` (line 143). -/
def Target.resetStrafe (t : Target) : Target :=
  if t.strafe.active = true then { t with worldX := t.strafe.originX } else t

/-- `Target.reset()` (src/target.js lines 134–152). -/
def Target.reset (t : Target) : Target :=
  if (t.resetCore.resetStrafe).peek.active = true then
    { t.resetCore.resetStrafe with
      peek := { t.resetCore.resetStrafe.peek with phase := .hidden, hiddenFor := 0, upFor := 0 },
      worldY := PEEK_HIDDEN_Y, isActive := false }
  else t.resetCore.resetStrafe

/-! ### Screen projection (`Game.worldToScreen`, src/game.js lines 173–197) -/

/-- The camera/viewport state `Game.worldToScreen` reads: canvas size,
`camera.horizonY` and the mouse-driven `camera.lookX`/`lookY`. -/
structure GameView where
  width : ℚ
  height : ℚ
  horizonY : ℚ
  lookX : ℚ
  lookY : ℚ
deriving DecidableEq

structure ScreenPos where
  x : ℚ
  y : ℚ
  scale : ℚ
  fogAmount : ℚ
deriving DecidableEq

/-- `Game.worldToScreen(wx, wy, d)`. -/
def worldToScreen (g : GameView) (wx wy dRaw : ℚ) : ScreenPos :=
  let d := jsMax (1/100) (jsMin 1 dRaw)
  let scale := 1 - d * CAMERA_PERSPECTIVE_SCALE
  let adjustedX := wx - g.lookX
  let horizonShift := g.lookY * g.height * (3/2)
  let hy := g.horizonY + horizonShift
  let gh := g.height - hy
  let yDepth := (1 - d) * (1 - d)
  { x := g.width / 2 + adjustedX * g.width * (2/5) * scale,
    y := hy + gh * yDepth - wy * 100 * scale,
    scale := scale,
    fogAmount := if d < FOG_NEAR then 0 else jsMin 1 ((d - FOG_NEAR) / (FOG_FAR - FOG_NEAR)) }

/-- `Target.checkHit(sx, sy, game)` (src/target.js lines 102–110). -/
def Target.checkHit (t : Target) (sx sy : ℚ) (g : GameView) : Bool :=
  if t.isFalling = true ∧ t.fallAngle < -45 then false
  else if t.peek.active = true ∧ t.isActive = false then false
  else
    let pos := worldToScreen g t.worldX t.worldY t.distance
    let radius := t.baseSize * pos.scale * (1/2)
    decide ((sx - pos.x) * (sx - pos.x) + (sy - pos.y) * (sy - pos.y) ≤ radius * radius)

/-- `Target.isCenterHit(sx, sy, game)` (src/target.js lines 112–117): the
centre zone is 30% of the projected radius. -/
def Target.isCenterHit (t : Target) (sx sy : ℚ) (g : GameView) : Bool :=
  let pos := worldToScreen g t.worldX t.worldY t.distance
  let radius := t.baseSize * pos.scale * (1/2) * (3/10)
  decide ((sx - pos.x) * (sx - pos.x) + (sy - pos.y) * (sy - pos.y) ≤ radius * radius)

/-! ### Shot resolution (`Game.checkTargetHit`, src/game.js lines 201–218) -/

structure SpreadOffset where
  x : ℚ
  y : ℚ
deriving DecidableEq

structure ShotResult where
  hit : Bool
  target : Option Target
  isCenterHit : Bool
deriving DecidableEq

/-- The comparison key of `[...this.targets].sort((a, b) => a.distance - b.distance)`. -/
def distLE (a b : Target) : Prop := a.distance ≤ b.distance

instance : DecidableRel distLE := fun a b =>
  inferInstanceAs (Decidable (a.distance ≤ b.distance))

instance : IsTotal Target distLE := ⟨fun a b => le_total a.distance b.distance⟩

instance : IsTrans Target distLE := ⟨fun _ _ _ h₁ h₂ => le_trans h₁ h₂⟩

/-- The stable ascending-distance sort of the target array. -/
def sortTargets (l : List Target) : List Target := List.insertionSort distLE l

/-- `Game.checkTargetHit(cx, cy, spreadOffset)`: shot point is aim point plus
spread offset; the first `checkHit` among the distance-sorted targets wins,
with `isCenterHit` evaluated on that target; otherwise a miss.  (The
particle side effects `_spawnHitSparks`/`_spawnDust` are not part of the
result.) -/
def checkTargetHit (g : GameView) (targets : List Target) (cx cy : ℚ)
    (off : SpreadOffset) : ShotResult :=
  match (sortTargets targets).find? (fun t => t.checkHit (cx + off.x) (cy + off.y) g) with
  | some t => ⟨true, some t, t.isCenterHit (cx + off.x) (cy + off.y) g⟩
  | none => ⟨false, none, false⟩

theorem sortTargets_sorted (l : List Target) : List.Sorted distLE (sortTargets l) :=
  List.sorted_insertionSort distLE l

theorem sortTargets_perm (l : List Target) : List.Perm (sortTargets l) l :=
  List.perm_insertionSort distLE l

theorem find?_sorted_min {p : Target → Bool} :
    ∀ {l : List Target}, List.Sorted distLE l → ∀ {t : Target}, l.find? p = some t →
      ∀ u ∈ l, p u = true → t.distance ≤ u.distance := by
  intro l
  induction l with
  | nil => intro _ t h; simp at h
  | cons a l ih =>
      intro hs t hf u hu hp
      rcases List.sorted_cons.mp hs with ⟨ha, hl⟩
      by_cases hpa : p a = true
      · rw [List.find?_cons_of_pos _ hpa] at hf
        cases hf
        rcases List.mem_cons.mp hu with h | hu'
        · rw [h]
        · exact ha u hu'
      · rw [List.find?_cons_of_neg _ (by simpa using hpa)] at hf
        rcases List.mem_cons.mp hu with h | hu'
        · exact absurd (h ▸ hp) hpa
        · exact ih hl hf u hu' hp

/-- The worked two-target overlap scenario: a 1000×1000 viewport with the
horizon at 450 and no mouse look. -/
def exGameView : GameView := ⟨1000, 1000, 450, 0, 0⟩

/-- Near target, distance 0.2, projected at screen point (500, 802). -/
def exNear : Target := mkTarget 0 0 (1/5) .static 0 1

/-- Far target, distance 0.8, its `worldY` chosen so that it projects to the
same screen point (500, 802). -/
def exFar : Target := mkTarget 0 (-55/4) (4/5) .static 0 1

theorem exNear_eval :
    exNear = { worldX := 0, worldY := 0, distance := 1/5, type := .static,
               baseSize := TARGET_BASE_SIZE, isFalling := false, fallAngle := 0,
               fallVel := 0, fallTimer := 0, impactFlash := 0,
               strafe := ⟨false, 0, 1, 0⟩, peek := ⟨false, .hidden, 0, 0⟩,
               reaction := ⟨0, 0, false⟩, isActive := true, isHit := false } := by rfl

theorem exFar_eval :
    exFar = { worldX := 0, worldY := -55/4, distance := 4/5, type := .static,
              baseSize := TARGET_BASE_SIZE, isFalling := false, fallAngle := 0,
              fallVel := 0, fallTimer := 0, impactFlash := 0,
              strafe := ⟨false, 0, 1, 0⟩, peek := ⟨false, .hidden, 0, 0⟩,
              reaction := ⟨0, 0, false⟩, isActive := true, isHit := false } := by rfl

/-- C1: shot resolution returns a distance-minimal target among all targets
whose `checkHit` accepts the shot point (aim point plus spread offset), with
`isCenterHit` evaluated on that same target; if none accepts, it reports a
miss (`hit = false`, `target = null`).  For two eligible targets overlapping
at the same screen point with distances 0.2 and 0.8, the 0.2 one is
returned. -/
theorem c1_shot_resolution :
    (∀ (g : GameView) (targets : List Target) (cx cy : ℚ) (off : SpreadOffset) (t : Target),
       (checkTargetHit g targets cx cy off).target = some t →
         (checkTargetHit g targets cx cy off).hit = true ∧
         t ∈ targets ∧
         t.checkHit (cx + off.x) (cy + off.y) g = true ∧
         (checkTargetHit g targets cx cy off).isCenterHit
           = t.isCenterHit (cx + off.x) (cy + off.y) g ∧
         ∀ u ∈ targets, u.checkHit (cx + off.x) (cy + off.y) g = true →
           t.distance ≤ u.distance) ∧
    (∀ (g : GameView) (targets : List Target) (cx cy : ℚ) (off : SpreadOffset),
       (∀ u ∈ targets, u.checkHit (cx + off.x) (cy + off.y) g = false) →
       checkTargetHit g targets cx cy off = ⟨false, none, false⟩) ∧
    ((checkTargetHit exGameView [exFar, exNear] 500 802 ⟨0, 0⟩).target = some exNear ∧
     exNear.distance = 1/5 ∧ exFar.distance = 4/5 ∧
     exNear.checkHit 500 802 exGameView = true ∧
     exFar.checkHit 500 802 exGameView = true) := by
  refine ⟨?_, ?_, ?_⟩
  · intro g targets cx cy off t h
    unfold checkTargetHit at *
    cases hfind : (sortTargets targets).find?
        (fun u => u.checkHit (cx + off.x) (cy + off.y) g) with
    | none => rw [hfind] at h; simp at h
    | some t' =>
        rw [hfind] at h
        simp only [Option.some.injEq] at h
        subst h
        refine ⟨rfl, ?_, ?_, rfl, ?_⟩
        · exact (sortTargets_perm targets).subset (List.mem_of_find?_eq_some hfind)
        · have hp := List.find?_some hfind
          simpa using hp
        · intro u hu hp
          exact find?_sorted_min (sortTargets_sorted targets) hfind u
            ((sortTargets_perm targets).mem_iff.mpr hu) hp
  · intro g targets cx cy off h
    have hnone : (sortTargets targets).find?
        (fun u => u.checkHit (cx + off.x) (cy + off.y) g) = none :=
      List.find?_eq_none.mpr
        (fun u hu => by simp [h u ((sortTargets_perm targets).subset hu)])
    unfold checkTargetHit
    rw [hnone]
  · refine ⟨?_, by norm_num [exNear_eval], by norm_num [exFar_eval], ?_, ?_⟩ <;>
      norm_num [checkTargetHit, sortTargets, List.insertionSort, List.orderedInsert,
        distLE, exNear_eval, exFar_eval, exGameView, Target.checkHit, Target.isCenterHit,
        worldToScreen, jsMin, jsMax, List.find?, CAMERA_PERSPECTIVE_SCALE, FOG_NEAR,
        FOG_FAR, TARGET_BASE_SIZE]

/-- Closed witness for C1: instantiating the resolver contract at the worked
overlap scenario shows the returned target is the distance-0.2 one, and its
distance is minimal among the two eligible overlapping targets. -/
theorem c1_witness :
    exNear ∈ [exFar, exNear] ∧
    (∀ u ∈ [exFar, exNear], u.checkHit (500 + (0:ℚ)) (802 + (0:ℚ)) exGameView = true →
      exNear.distance ≤ u.distance) := by
  have h := (c1_shot_resolution.1 exGameView [exFar, exNear] 500 802 ⟨0, 0⟩ exNear
    c1_shot_resolution.2.2.1)
  exact ⟨h.2.1, h.2.2.2.2⟩

/-! ### C5: `onHit` on an already-falling target -/

/-- C5: `Target.onHit` is a no-op returning reaction time 0 whenever the
target is already falling; since any `onHit` leaves the target falling, a
second consecutive `onHit` (without `reset`) returns 0 and changes nothing,
so no fall physics is applied twice. -/
theorem c5_onhit_idempotent :
    (∀ (t : Target) (c : Bool) (now : ℚ), t.isFalling = true →
       t.onHit c now = (t, 0)) ∧
    (∀ (t : Target) (c : Bool) (now : ℚ), (t.onHit c now).1.isFalling = true) ∧
    (∀ (t : Target) (c c' : Bool) (now now' : ℚ),
       (t.onHit c now).1.onHit c' now' = ((t.onHit c now).1, 0)) := by
  have h1 : ∀ (t : Target) (c : Bool) (now : ℚ), t.isFalling = true →
      t.onHit c now = (t, 0) := by
    intro t c now h
    unfold Target.onHit
    rw [if_pos h]
  have h2 : ∀ (t : Target) (c : Bool) (now : ℚ), (t.onHit c now).1.isFalling = true := by
    intro t c now
    unfold Target.onHit
    split
    · assumption
    · rfl
  exact ⟨h1, h2, fun t c c' now now' => h1 _ c' now' (h2 t c now)⟩

/-- Closed witness for C5: hitting a static target twice — the second hit is
the identity with reaction time 0. -/
theorem c5_witness :
    ((mkTarget 0 0 (1/2) .static 0 1).onHit true 100).1.onHit false 200
      = (((mkTarget 0 0 (1/2) .static 0 1).onHit true 100).1, 0) :=
  c5_onhit_idempotent.2.2 (mkTarget 0 0 (1/2) .static 0 1) true false 100 200

/-! ### C6: inactive peek targets are unhittable -/

/-- C6: a target with `peek.active` and `isActive = false` (a peek target
while hidden, rising, mid-glow or dropping — the only targets whose
`isActive` is ever false) fails `checkHit` at every screen point, and shot
resolution therefore never returns it as the hit target. -/
theorem c6_inactive_never_hit :
    (∀ (t : Target) (sx sy : ℚ) (g : GameView),
       t.peek.active = true → t.isActive = false → t.checkHit sx sy g = false) ∧
    (∀ (g : GameView) (targets : List Target) (cx cy : ℚ) (off : SpreadOffset) (t : Target),
       t.peek.active = true → t.isActive = false →
       (checkTargetHit g targets cx cy off).target ≠ some t) := by
  have h1 : ∀ (t : Target) (sx sy : ℚ) (g : GameView),
      t.peek.active = true → t.isActive = false → t.checkHit sx sy g = false := by
    intro t sx sy g hp ha
    unfold Target.checkHit
    split
    · rfl
    · rw [if_pos ⟨hp, ha⟩]
  refine ⟨h1, ?_⟩
  intro g targets cx cy off t hp ha h
  unfold checkTargetHit at h
  cases hfind : (sortTargets targets).find?
      (fun u => u.checkHit (cx + off.x) (cy + off.y) g) with
  | none => rw [hfind] at h; simp at h
  | some t' =>
      rw [hfind] at h
      simp only [Option.some.injEq] at h
      subst h
      have hsome := List.find?_some hfind
      simp [h1 t' (cx + off.x) (cy + off.y) g hp ha] at hsome

/-- Closed witness for C6: a freshly constructed peek target (hidden phase,
inactive) is not hittable even at its own projected centre. -/
theorem c6_witness :
    (mkTarget 0 0 (1/2) .peek 0 1).checkHit 500 802 exGameView = false :=
  c6_inactive_never_hit.1 (mkTarget 0 0 (1/2) .peek 0 1) 500 802 exGameView
    (by rfl) (by rfl)

/-! ### C10: peek `worldY` stays in `[HIDDEN_Y, 0]` -/

theorem flashDecay_worldY (t : Target) (dt : ℚ) : (t.flashDecay dt).worldY = t.worldY := by
  unfold Target.flashDecay
  split <;> rfl

theorem strafeStep_of_inactive (t : Target) (dt : ℚ) (hs : t.strafe.active = false) :
    t.strafeStep dt = t := by
  unfold Target.strafeStep
  rw [hs]
  simp

theorem updateBehaviour_of_inactive (t : Target) (dt now : ℚ) (hs : t.strafe.active = false) :
    t.updateBehaviour dt now = if t.peek.active = true then t.updatePeek dt now else t := by
  unfold Target.updateBehaviour
  rw [strafeStep_of_inactive t dt hs]

theorem resetStrafe_peek (t : Target) : (t.resetStrafe).peek = t.peek := by
  unfold Target.resetStrafe
  split <;> rfl

theorem updatePeek_worldY_bounds (t : Target) (dt now : ℚ) (hdt : 0 ≤ dt)
    (h0 : PEEK_HIDDEN_Y ≤ t.worldY) (h1 : t.worldY ≤ 0) :
    PEEK_HIDDEN_Y ≤ (t.updatePeek dt now).worldY ∧ (t.updatePeek dt now).worldY ≤ 0 := by
  have hr : (0:ℚ) ≤ PEEK_RISE_SPEED * dt := by unfold PEEK_RISE_SPEED; positivity
  have hd : (0:ℚ) ≤ PEEK_DROP_SPEED * dt := by unfold PEEK_DROP_SPEED; positivity
  have hh : PEEK_HIDDEN_Y ≤ 0 := by norm_num [PEEK_HIDDEN_Y]
  unfold Target.updatePeek
  cases hph : t.peek.phase <;> simp only []
  · split <;> exact ⟨h0, h1⟩
  · split
    · exact ⟨hh, le_refl _⟩
    · constructor <;> simp only [] <;> [linarith; linarith [not_le.mp (by assumption)]]
  · split <;> split <;> exact ⟨h0, h1⟩
  · split
    · exact ⟨le_refl _, hh⟩
    · have := not_le.mp (by assumption)
      constructor <;> simp only [] <;> linarith

theorem update_worldY_of_peek (t : Target) (dt now : ℚ) (hf : t.isFalling = false)
    (hs : t.strafe.active = false) (hp : t.peek.active = true) :
    (t.update dt now).worldY = (t.updatePeek dt now).worldY := by
  unfold Target.update
  rw [hf]
  simp only [Bool.false_eq_true, if_false, flashDecay_worldY,
    updateBehaviour_of_inactive t dt now hs, hp, if_true]

/-- C10: for every peek-type target, `worldY` stays inside
`[PEEK.HIDDEN_Y, 0]`: it is `HIDDEN_Y` at construction and after `reset()`;
a rising step that would overshoot clamps to 0 and a dropping step that would
undershoot clamps to `HIDDEN_Y` in that same step; and no `update(dt, t)`
with `dt ≥ 0` moves it outside the interval (falling targets keep `worldY`
untouched). -/
theorem c10_peek_worldY_bounds :
    (∀ wx wy d s1 s2 : ℚ, (mkTarget wx wy d .peek s1 s2).worldY = PEEK_HIDDEN_Y) ∧
    (∀ t : Target, t.peek.active = true → t.reset.worldY = PEEK_HIDDEN_Y) ∧
    (∀ (t : Target) (dt now : ℚ), t.peek.active = true → t.strafe.active = false → 0 ≤ dt →
       PEEK_HIDDEN_Y ≤ t.worldY → t.worldY ≤ 0 →
       PEEK_HIDDEN_Y ≤ (t.update dt now).worldY ∧ (t.update dt now).worldY ≤ 0) ∧
    (∀ (t : Target) (dt now : ℚ), t.isFalling = false → t.strafe.active = false →
       t.peek.active = true → t.peek.phase = .rising → 0 ≤ t.worldY + PEEK_RISE_SPEED * dt →
       (t.update dt now).worldY = 0) ∧
    (∀ (t : Target) (dt now : ℚ), t.isFalling = false → t.strafe.active = false →
       t.peek.active = true → t.peek.phase = .dropping →
       t.worldY - PEEK_DROP_SPEED * dt ≤ PEEK_HIDDEN_Y →
       (t.update dt now).worldY = PEEK_HIDDEN_Y) := by
  refine ⟨?_, ?_, ?_, ?_, ?_⟩
  · intro wx wy d s1 s2
    rfl
  · intro t hp
    have hp' : (t.resetCore.resetStrafe).peek.active = true := by
      rw [resetStrafe_peek]
      exact hp
    unfold Target.reset
    rw [if_pos hp']
  · intro t dt now hp hs hdt h0 h1
    cases hf : t.isFalling with
    | true =>
        have : (t.update dt now).worldY = t.worldY := by
          unfold Target.update
          rw [hf]
          simp only [if_true, flashDecay_worldY, Target.updateFall]
        rw [this]
        exact ⟨h0, h1⟩
    | false =>
        rw [update_worldY_of_peek t dt now hf hs hp]
        exact updatePeek_worldY_bounds t dt now hdt h0 h1
  · intro t dt now hf hs hp hph hy
    rw [update_worldY_of_peek t dt now hf hs hp]
    unfold Target.updatePeek
    rw [hph]
    simp only [if_pos hy]
  · intro t dt now hf hs hp hph hy
    rw [update_worldY_of_peek t dt now hf hs hp]
    unfold Target.updatePeek
    rw [hph]
    simp only [if_pos hy]

/-- Closed witness for C10: a fresh peek target starts at `HIDDEN_Y`, and a
0.1 s hidden-phase tick keeps `worldY` inside `[HIDDEN_Y, 0]`. -/
theorem c10_witness :
    (mkTarget 0 0 (1/2) .peek 0 1).worldY = PEEK_HIDDEN_Y ∧
    (PEEK_HIDDEN_Y ≤ ((mkTarget 0 0 (1/2) .peek 0 1).update (1/10) 100).worldY ∧
     ((mkTarget 0 0 (1/2) .peek 0 1).update (1/10) 100).worldY ≤ 0) :=
  ⟨c10_peek_worldY_bounds.1 0 0 (1/2) 0 1,
   c10_peek_worldY_bounds.2.2.1 (mkTarget 0 0 (1/2) .peek 0 1) (1/10) 100
     (by rfl) (by rfl) (by norm_num)
     (by rw [c10_peek_worldY_bounds.1 0 0 (1/2) 0 1])
     (by rw [c10_peek_worldY_bounds.1 0 0 (1/2) 0 1]; norm_num [PEEK_HIDDEN_Y])⟩

/-! ### C7: peek activation timing

The game loop ticks every target with the frame delta `dt` (seconds) while
`performance.now()` (ms) advances by `1000·dt`; `runPeek t e dts` runs
`Target.update` over the deltas `dts` starting from elapsed time `e`.
-/

def runPeek : Target → ℚ → List ℚ → Target
  | t, _, [] => t
  | t, e, dt :: rest => runPeek (t.update dt (1000 * (e + dt))) (e + dt) rest

/-- `REST_S` + the rise time from `HIDDEN_Y` to 0 at `RISE_SPEED` + `GLOW_MS`
(in seconds): `1.5 + 0.4 + 0.5 = 2.4`. -/
def peekActivationTimeS : ℚ :=
  PEEK_REST_S + (0 - PEEK_HIDDEN_Y) / PEEK_RISE_SPEED + PEEK_GLOW_MS / 1000

/-- Per-phase progress bound during a peek target's first cycle at elapsed
time `e`. -/
def PhaseCond (ph : PeekPhase) (t : Target) (e : ℚ) : Prop :=
  match ph with
  | .hidden => t.peek.hiddenFor ≤ e ∧ t.worldY = PEEK_HIDDEN_Y
  | .rising => PEEK_REST_S + (t.worldY - PEEK_HIDDEN_Y) / PEEK_RISE_SPEED ≤ e
  | .exposed => t.reaction.isGlowing = true ∧
      1000 * (PEEK_REST_S - PEEK_HIDDEN_Y / PEEK_RISE_SPEED) ≤ t.reaction.glowStart ∧
      0 ≤ t.peek.upFor ∧
      t.reaction.glowStart + 1000 * t.peek.upFor ≤ 1000 * e
  | .dropping => False

/-- State of a peek target that has not yet reached its first activation. -/
def FirstCycle (t : Target) (e : ℚ) : Prop :=
  t.isActive = false ∧ t.reaction.activeAt = 0 ∧ t.isFalling = false ∧
  t.peek.active = true ∧ t.strafe.active = false ∧
  PhaseCond t.peek.phase t e

/-- Invariant: either at least `peekActivationTimeS` has elapsed, or the
target is still in its (inactive) first cycle. -/
def PeekInv (t : Target) (e : ℚ) : Prop :=
  peekActivationTimeS ≤ e ∨ FirstCycle t e

theorem flashDecay_proj (t : Target) (dt : ℚ) :
    (t.flashDecay dt).isActive = t.isActive ∧ (t.flashDecay dt).reaction = t.reaction ∧
    (t.flashDecay dt).isFalling = t.isFalling ∧ (t.flashDecay dt).peek = t.peek ∧
    (t.flashDecay dt).strafe = t.strafe ∧ (t.flashDecay dt).worldY = t.worldY := by
  unfold Target.flashDecay
  split <;> exact ⟨rfl, rfl, rfl, rfl, rfl, rfl⟩

theorem firstCycle_flashDecay (t : Target) (dt e : ℚ) :
    FirstCycle (t.flashDecay dt) e ↔ FirstCycle t e := by
  obtain ⟨h1, h2, h3, h4, h5, h6⟩ := flashDecay_proj t dt
  unfold FirstCycle PhaseCond
  rw [h1, h2, h3, h4, h5, h6]

theorem peekInv_flashDecay (t : Target) (dt e : ℚ) :
    PeekInv (t.flashDecay dt) e ↔ PeekInv t e := by
  unfold PeekInv
  rw [firstCycle_flashDecay]

theorem peekInv_step (t : Target) (e dt : ℚ) (hdt : 0 ≤ dt) (hinv : PeekInv t e) :
    PeekInv (t.update dt (1000 * (e + dt))) (e + dt) := by
  rcases hinv with h | hfc
  · left
    linarith
  · obtain ⟨ha, hat, hf, hp, hs, hph⟩ := hfc
    have hupd : t.update dt (1000 * (e + dt)) = (t.updatePeek dt (1000 * (e + dt))).flashDecay dt := by
      unfold Target.update
      rw [hf]
      simp only [Bool.false_eq_true, if_false, updateBehaviour_of_inactive t dt _ hs, hp, if_true]
    rw [hupd, peekInv_flashDecay]
    unfold Target.updatePeek
    cases hph1 : t.peek.phase with
    | hidden =>
        rw [hph1] at hph
        simp only [PhaseCond] at hph
        obtain ⟨hhf, hwy⟩ := hph
        simp only []
        split
        · right
          refine ⟨rfl, hat, hf, hp, hs, ?_⟩
          simp only [PhaseCond]
          rw [hwy]
          have hrest : PEEK_REST_S ≤ t.peek.hiddenFor + dt := by assumption
          unfold PEEK_REST_S PEEK_HIDDEN_Y PEEK_RISE_SPEED at *
          linarith
        · right
          refine ⟨rfl, hat, hf, hp, hs, ?_⟩
          simp only [PhaseCond, hph1]
          exact ⟨by linarith, hwy⟩
    | rising =>
        rw [hph1] at hph
        simp only [PhaseCond] at hph
        simp only []
        split
        · right
          have hrise : 0 ≤ t.worldY + PEEK_RISE_SPEED * dt := by assumption
          refine ⟨rfl, rfl, hf, hp, hs, ?_⟩
          simp only [PhaseCond]
          refine ⟨?_, ?_, ?_, ?_⟩ <;>
            first
              | trivial
              | (unfold PEEK_REST_S PEEK_HIDDEN_Y PEEK_RISE_SPEED at *; linarith)
        · right
          refine ⟨ha, hat, hf, hp, hs, ?_⟩
          simp only [PhaseCond, hph1]
          unfold PEEK_REST_S PEEK_HIDDEN_Y PEEK_RISE_SPEED at *
          linarith
    | exposed =>
        rw [hph1] at hph
        simp only [PhaseCond] at hph
        obtain ⟨hg, hgs, hup, hbound⟩ := hph
        simp only [hg, true_and]
        split
        · -- glow elapsed: the target activates now, at e+dt ≥ 2.4 s
          have hfire : PEEK_GLOW_MS ≤ 1000 * (e + dt) - t.reaction.glowStart := by assumption
          have : peekActivationTimeS ≤ e + dt := by
            unfold peekActivationTimeS PEEK_REST_S PEEK_HIDDEN_Y PEEK_RISE_SPEED PEEK_GLOW_MS at *
            linarith
          split <;> exact Or.inl this
        · have hnof : ¬ PEEK_GLOW_MS ≤ 1000 * (e + dt) - t.reaction.glowStart := by assumption
          split
          · -- would drop before the glow ended: impossible
            exfalso
            have hexp : PEEK_EXPOSE_S ≤ t.peek.upFor + dt := by assumption
            unfold PEEK_EXPOSE_S PEEK_GLOW_MS at *
            push_neg at hnof
            linarith
          · right
            refine ⟨ha, hat, hf, hp, hs, ?_⟩
            simp only [PhaseCond, hph1]
            exact ⟨hg, hgs, by linarith, by linarith⟩
    | dropping =>
        rw [hph1] at hph
        simp only [PhaseCond] at hph

theorem runPeek_inv (dts : List ℚ) : ∀ (t : Target) (e : ℚ), PeekInv t e →
    (∀ d ∈ dts, 0 ≤ d) → PeekInv (runPeek t e dts) (e + dts.sum) := by
  induction dts with
  | nil =>
      intro t e h _
      simpa using h
  | cons d rest ih =>
      intro t e h hd
      have h1 := peekInv_step t e d (hd d (by simp)) h
      have h2 := ih _ (e + d) h1 (fun x hx => hd x (by simp [hx]))
      unfold runPeek
      have hsum : e + d + rest.sum = e + (d :: rest).sum := by
        simp [List.sum_cons]
        ring
      rw [← hsum]
      exact h2

theorem update_peek_simp (t : Target) (dt now : ℚ) (hf : t.isFalling = false)
    (hs : t.strafe.active = false) (hp : t.peek.active = true) :
    t.update dt now = (t.updatePeek dt now).flashDecay dt := by
  unfold Target.update
  rw [hf]
  simp only [Bool.false_eq_true, if_false, updateBehaviour_of_inactive t dt now hs, hp, if_true]

theorem flashDecay_zero (t : Target) (dt : ℚ) (h : t.impactFlash = 0) :
    t.flashDecay dt = t := by
  unfold Target.flashDecay
  rw [h]
  norm_num

/-- The starting state of the worked peek run, as a literal. -/
theorem mkPeek_eval : mkTarget 0 0 (1/2) .peek 0 1 =
    { worldX := 0, worldY := PEEK_HIDDEN_Y, distance := 1/2, type := .peek,
      baseSize := TARGET_BASE_SIZE, isFalling := false, fallAngle := 0, fallVel := 0,
      fallTimer := 0, impactFlash := 0, strafe := ⟨false, 0, 1, 0⟩,
      peek := ⟨true, .hidden, 0, 0⟩, reaction := ⟨0, 0, false⟩,
      isActive := false, isHit := false } := rfl

theorem mkPeek_firstCycle (wx wy d s1 s2 : ℚ) :
    FirstCycle (mkTarget wx wy d .peek s1 s2) 0 := by
  refine ⟨rfl, rfl, rfl, rfl, rfl, ?_⟩
  simp only [mkTarget, PhaseCond]
  exact ⟨le_refl 0, rfl⟩

/-- C7: a peek target ticked continuously from the start of its hidden phase
is inactive with `reaction.activeAt = 0` at every tick while the elapsed
time is below `REST_S + (rise time from HIDDEN_Y to 0 at RISE_SPEED) +
GLOW_MS` (= 2.4 s); and on a tick schedule that lands exactly on that moment
(1.5 s, then four 0.1 s rising ticks, then a 0.5 s glow tick) the target
becomes active at exactly 2.4 s with `activeAt = 2400 ≠ 0` stamped as the
reaction-time origin. -/
theorem c7_peek_activation :
    (∀ (wx wy d s1 s2 : ℚ) (dts : List ℚ), (∀ x ∈ dts, 0 ≤ x) →
       dts.sum < peekActivationTimeS →
       (runPeek (mkTarget wx wy d .peek s1 s2) 0 dts).isActive = false ∧
       (runPeek (mkTarget wx wy d .peek s1 s2) 0 dts).reaction.activeAt = 0) ∧
    (([3/2, 1/10, 1/10, 1/10, 1/10, 1/2] : List ℚ).sum = peekActivationTimeS ∧
     (runPeek (mkTarget 0 0 (1/2) .peek 0 1) 0 [3/2, 1/10, 1/10, 1/10, 1/10, 1/2]).isActive
        = true ∧
     (runPeek (mkTarget 0 0 (1/2) .peek 0 1) 0
        [3/2, 1/10, 1/10, 1/10, 1/10, 1/2]).reaction.activeAt = 2400 ∧
     (2400 : ℚ) ≠ 0) := by
  constructor
  · intro wx wy d s1 s2 dts hx hsum
    have h0 : PeekInv (mkTarget wx wy d .peek s1 s2) 0 :=
      Or.inr (mkPeek_firstCycle wx wy d s1 s2)
    have h := runPeek_inv dts (mkTarget wx wy d .peek s1 s2) 0 h0 hx
    rcases h with h | h
    · exfalso
      rw [zero_add] at h
      linarith
    · exact ⟨h.1, h.2.1⟩
  · refine ⟨by norm_num [peekActivationTimeS, PEEK_REST_S, PEEK_HIDDEN_Y, PEEK_RISE_SPEED,
        PEEK_GLOW_MS], ?_, ?_, by norm_num⟩ <;>
      norm_num [runPeek, mkPeek_eval, update_peek_simp, flashDecay_zero,
        Target.updatePeek, jsMax, jsMin,
        PEEK_REST_S, PEEK_HIDDEN_Y, PEEK_RISE_SPEED, PEEK_GLOW_MS, PEEK_EXPOSE_S,
        PEEK_DROP_SPEED]

/-- Closed witness for C7: after 1.5 s + 0.3 s of ticking (elapsed 1.8 s <
2.4 s) the peek target is still inactive with no reaction origin. -/
theorem c7_witness :
    (runPeek (mkTarget 0 0 (1/2) .peek 0 1) 0 [3/2, 3/10]).isActive = false ∧
    (runPeek (mkTarget 0 0 (1/2) .peek 0 1) 0 [3/2, 3/10]).reaction.activeAt = 0 :=
  c7_peek_activation.1 0 0 (1/2) 0 1 [3/2, 3/10]
    (by intro x hx; fin_cases hx <;> norm_num)
    (by norm_num [peekActivationTimeS, PEEK_REST_S, PEEK_HIDDEN_Y, PEEK_RISE_SPEED,
      PEEK_GLOW_MS])

/-! ## Session stats (`Game.recordShot`, src/game.js lines 222–246)

`Game._blankStats()` initialises `bestReaction` to `Infinity`; rationals have
no infinity, so `bestReaction` is an `Option ℚ` with `none` for `Infinity`
(the published value is `min` of the recorded samples, and the `<` update in
the source realises exactly this fold).  The source stores
`consistency = Math.sqrt(variance)`; a square root is irrational in general,
so the model tracks `consistencySq`, the population variance — the square of
the source's `consistency` field, with `consistency = 0` iff
`consistencySq = 0`.
-/

structure SessionStats where
  shots : ℕ
  hits : ℕ
  reactionTimes : List ℚ
  avgReaction : ℚ
  bestReaction : Option ℚ
  consistencySq : ℚ
deriving DecidableEq

/-- `Game._blankStats()` (src/game.js lines 417–419). -/
def blankStats : SessionStats :=
  { shots := 0, hits := 0, reactionTimes := [], avgReaction := 0,
    bestReaction := none, consistencySq := 0 }

/-- Arithmetic mean, `sum / s.reactionTimes.length`. -/
def listMean (l : List ℚ) : ℚ := l.sum / l.length

/-- Population variance, `Σ (t - mean)² / n` — the square of the source's
`consistency`. -/
def popVariance (l : List ℚ) : ℚ :=
  (l.map (fun t => (t - listMean l) ^ 2)).sum / l.length

/-- The `if (reactionMs < s.bestReaction) s.bestReaction = reactionMs` update
(with `none` as `Infinity`). -/
def bestUpdate (b : Option ℚ) (r : ℚ) : Option ℚ :=
  match b with
  | none => some r
  | some m => if r < m then some r else some m

/-- `Game.recordShot(hit, reactionMs)` (src/game.js lines 222–246) on the
session-stats record.  (The trailing `ui.updateStats`/`updateReactionStats`
calls publish the derived accuracy and are display-only.) -/
def recordShot (s : SessionStats) (hit : Bool) (reactionMs : ℚ) : SessionStats :=
  let s1 := { s with shots := s.shots + 1 }
  if hit = true then
    let s2 := { s1 with hits := s1.hits + 1 }
    if 0 < reactionMs ∧ reactionMs < 5000 then
      { s2 with
        reactionTimes := s2.reactionTimes ++ [reactionMs],
        bestReaction := bestUpdate s2.bestReaction reactionMs,
        avgReaction := listMean (s2.reactionTimes ++ [reactionMs]),
        consistencySq :=
          if 1 < (s2.reactionTimes ++ [reactionMs]).length then
            popVariance (s2.reactionTimes ++ [reactionMs])
          else s2.consistencySq }
    else s2
  else s1

def applyShots (s : SessionStats) (ops : List (Bool × ℚ)) : SessionStats :=
  ops.foldl (fun s p => recordShot s p.1 p.2) s

/-- The reaction samples a shot sequence contributes: hits with
`0 < reactionMs < 5000`. -/
def validTimes (ops : List (Bool × ℚ)) : List ℚ :=
  ops.filterMap (fun p => if p.1 = true ∧ 0 < p.2 ∧ p.2 < 5000 then some p.2 else none)

/-- Running minimum of a sample list (`none` for no samples). -/
def listMinQ (l : List ℚ) : Option ℚ := l.foldl bestUpdate none

theorem validTimes_append (ops : List (Bool × ℚ)) (p : Bool × ℚ) :
    validTimes (ops ++ [p])
      = validTimes ops ++ (if p.1 = true ∧ 0 < p.2 ∧ p.2 < 5000 then [p.2] else []) := by
  unfold validTimes
  rw [List.filterMap_append]
  congr 1
  split <;> simp [List.filterMap, *]

theorem listMinQ_append (l : List ℚ) (r : ℚ) :
    listMinQ (l ++ [r]) = bestUpdate (listMinQ l) r := by
  unfold listMinQ
  rw [List.foldl_append]
  rfl

theorem foldl_bestUpdate_some (l : List ℚ) : ∀ m : ℚ,
    ∃ m', l.foldl bestUpdate (some m) = some m' ∧ m' ≤ m ∧ (m' = m ∨ m' ∈ l) ∧
      ∀ x ∈ l, m' ≤ x := by
  induction l with
  | nil =>
      intro m
      exact ⟨m, rfl, le_refl _, Or.inl rfl, by simp⟩
  | cons a l ih =>
      intro m
      by_cases h : a < m
      · obtain ⟨m', h1, h2, h3, h4⟩ := ih a
        refine ⟨m', ?_, by linarith, ?_, ?_⟩
        · simp only [List.foldl_cons, bestUpdate, if_pos h]
          exact h1
        · rcases h3 with h3 | h3
          · exact Or.inr (by simp [h3])
          · exact Or.inr (by simp [h3])
        · intro x hx
          rcases List.mem_cons.mp hx with h5 | h5
          · rw [h5]; exact h2
          · exact h4 x h5
      · obtain ⟨m', h1, h2, h3, h4⟩ := ih m
        refine ⟨m', ?_, h2, ?_, ?_⟩
        · simp only [List.foldl_cons, bestUpdate, if_neg h]
          exact h1
        · rcases h3 with h3 | h3
          · exact Or.inl h3
          · exact Or.inr (by simp [h3])
        · intro x hx
          rcases List.mem_cons.mp hx with h5 | h5
          · push_neg at h
            rw [h5]; linarith
          · exact h4 x h5

theorem listMinQ_spec (l : List ℚ) (m : ℚ) (h : listMinQ l = some m) :
    m ∈ l ∧ ∀ x ∈ l, m ≤ x := by
  cases l with
  | nil => simp [listMinQ, List.foldl] at h
  | cons a l' =>
      have hstep : listMinQ (a :: l') = l'.foldl bestUpdate (some a) := by
        simp only [listMinQ, List.foldl_cons, bestUpdate]
      obtain ⟨m', h1, h2, h3, h4⟩ := foldl_bestUpdate_some l' a
      rw [hstep, h1] at h
      cases h
      constructor
      · rcases h3 with h3 | h3
        · simp [h3]
        · simp [h3]
      · intro x hx
        rcases List.mem_cons.mp hx with h5 | h5
        · rw [h5]; exact h2
        · exact h4 x h5

theorem recordShot_valid (s : SessionStats) (r : ℚ) (h : 0 < r ∧ r < 5000) :
    recordShot s true r =
      { s with
        shots := s.shots + 1,
        hits := s.hits + 1,
        reactionTimes := s.reactionTimes ++ [r],
        bestReaction := bestUpdate s.bestReaction r,
        avgReaction := listMean (s.reactionTimes ++ [r]),
        consistencySq :=
          if 1 < (s.reactionTimes ++ [r]).length then popVariance (s.reactionTimes ++ [r])
          else s.consistencySq } := by
  unfold recordShot
  rw [if_pos rfl, if_pos h]

theorem recordShot_invalid (s : SessionStats) (r : ℚ) (h : ¬(0 < r ∧ r < 5000)) :
    recordShot s true r = { s with shots := s.shots + 1, hits := s.hits + 1 } := by
  unfold recordShot
  rw [if_pos rfl, if_neg h]

theorem recordShot_miss (s : SessionStats) (hit : Bool) (r : ℚ) (h : hit = false) :
    recordShot s hit r = { s with shots := s.shots + 1 } := by
  unfold recordShot
  rw [h]
  simp

theorem applyShots_append (l : List (Bool × ℚ)) (p : Bool × ℚ) :
    applyShots blankStats (l ++ [p]) = recordShot (applyShots blankStats l) p.1 p.2 := by
  unfold applyShots
  rw [List.foldl_append]
  rfl

theorem applyShots_spec (ops : List (Bool × ℚ)) :
    (applyShots blankStats ops).shots = ops.length ∧
    (applyShots blankStats ops).hits = (ops.filter (fun p => p.1 = true)).length ∧
    (applyShots blankStats ops).reactionTimes = validTimes ops ∧
    (applyShots blankStats ops).bestReaction = listMinQ (validTimes ops) ∧
    (validTimes ops = [] → (applyShots blankStats ops).avgReaction = 0) ∧
    (validTimes ops ≠ [] →
       (applyShots blankStats ops).avgReaction = listMean (validTimes ops)) ∧
    (2 ≤ (validTimes ops).length →
       (applyShots blankStats ops).consistencySq = popVariance (validTimes ops)) ∧
    ((validTimes ops).length < 2 → (applyShots blankStats ops).consistencySq = 0) := by
  induction ops using List.reverseRecOn with
  | nil => simp [applyShots, blankStats, validTimes, listMinQ]
  | append_singleton l p ih =>
      obtain ⟨ihS, ihH, ihR, ihB, ihA0, ihA, ihC, ihC0⟩ := ih
      rw [applyShots_append]
      by_cases hvalid : p.1 = true ∧ 0 < p.2 ∧ p.2 < 5000
      · obtain ⟨hp1, hr⟩ := hvalid
        have hval : validTimes (l ++ [p]) = validTimes l ++ [p.2] := by
          rw [validTimes_append, if_pos ⟨hp1, hr⟩]
        rw [hp1, recordShot_valid _ _ hr]
        refine ⟨?_, ?_, ?_, ?_, ?_, ?_, ?_, ?_⟩
        · simp [ihS]
        · simp [ihH, List.filter_append, hp1]
        · simp [ihR, hval]
        · simp [ihR, ihB, hval, listMinQ_append]
        · intro h
          rw [hval] at h
          simp at h
        · intro _
          simp [ihR, hval]
        · intro h
          rw [hval] at h
          simp only [ihR, hval]
          rw [if_pos]
          simp only [List.length_append, List.length_singleton] at h ⊢
          omega
        · intro h
          rw [hval] at h
          simp only [List.length_append, List.length_singleton] at h
          have h0 : (validTimes l).length = 0 := by omega
          have hnil : validTimes l = [] := List.length_eq_zero.mp h0
          simp only [ihR, hnil]
          norm_num
          exact ihC0 (by omega)
      · have hval : validTimes (l ++ [p]) = validTimes l := by
          rw [validTimes_append, if_neg hvalid]
          simp
        cases hp1 : p.1 with
        | true =>
            have hr : ¬(0 < p.2 ∧ p.2 < 5000) := by
              intro hc
              exact hvalid ⟨hp1, hc⟩
            rw [recordShot_invalid _ _ hr]
            refine ⟨by simp [ihS], ?_, by simp [ihR, hval], by simp [ihB, hval],
              ?_, ?_, ?_, ?_⟩
            · simp [ihH, List.filter_append, hp1]
            · intro h; rw [hval] at h; simp [ihA0 h]
            · intro h; rw [hval] at h ⊢; simp [ihA h]
            · intro h; rw [hval] at h ⊢; simp [ihC h]
            · intro h; rw [hval] at h; simp [ihC0 h]
        | false =>
            rw [recordShot_miss _ false _ rfl]
            refine ⟨by simp [ihS], ?_, by simp [ihR, hval], by simp [ihB, hval],
              ?_, ?_, ?_, ?_⟩
            · simp [ihH, List.filter_append, hp1]
            · intro h; rw [hval] at h; simp [ihA0 h]
            · intro h; rw [hval] at h ⊢; simp [ihA h]
            · intro h; rw [hval] at h ⊢; simp [ihC h]
            · intro h; rw [hval] at h; simp [ihC0 h]

/-- C4: `recordShot` always increments `shots` by exactly 1 and increments
`hits` iff the shot hit; valid reaction samples (`0 < reactionMs < 5000` on a
hit) are appended to `reactionTimes`, with `bestReaction` the minimum sample,
`avgReaction` the arithmetic mean, and the consistency the population
standard deviation (tracked here by its square, the population variance,
which stays 0 with fewer than 2 samples).  From blank stats,
`recordShot(true, 250)` then `recordShot(true, 350)` yields
`avgReaction = 300`, `bestReaction = 250` and consistency 50
(`consistencySq = 50²`). -/
theorem c4_record_shot :
    (∀ ops : List (Bool × ℚ),
       (applyShots blankStats ops).shots = ops.length ∧
       (applyShots blankStats ops).hits = (ops.filter (fun p => p.1 = true)).length ∧
       (applyShots blankStats ops).reactionTimes = validTimes ops ∧
       (applyShots blankStats ops).bestReaction = listMinQ (validTimes ops) ∧
       (validTimes ops ≠ [] →
          (applyShots blankStats ops).avgReaction = listMean (validTimes ops)) ∧
       (2 ≤ (validTimes ops).length →
          (applyShots blankStats ops).consistencySq = popVariance (validTimes ops)) ∧
       ((validTimes ops).length < 2 → (applyShots blankStats ops).consistencySq = 0)) ∧
    (∀ (l : List ℚ) (m : ℚ), listMinQ l = some m → m ∈ l ∧ ∀ x ∈ l, m ≤ x) ∧
    (∀ (s : SessionStats) (hit : Bool) (r : ℚ),
       (recordShot s hit r).shots = s.shots + 1 ∧
       (recordShot s hit r).hits = (if hit = true then s.hits + 1 else s.hits)) ∧
    ((applyShots blankStats [(true, 250), (true, 350)]).avgReaction = 300 ∧
     (applyShots blankStats [(true, 250), (true, 350)]).bestReaction = some 250 ∧
     (applyShots blankStats [(true, 250), (true, 350)]).consistencySq = 50 ^ 2) := by
  refine ⟨?_, listMinQ_spec, ?_, ?_⟩
  · intro ops
    have h := applyShots_spec ops
    exact ⟨h.1, h.2.1, h.2.2.1, h.2.2.2.1, h.2.2.2.2.2.1, h.2.2.2.2.2.2.1, h.2.2.2.2.2.2.2⟩
  · intro s hit r
    constructor
    · unfold recordShot
      split
      · split <;> rfl
      · rfl
    · unfold recordShot
      split
      · split <;> rfl
      · rfl
  · refine ⟨?_, ?_, ?_⟩ <;>
      norm_num [applyShots, recordShot, blankStats, bestUpdate, listMean, popVariance,
        List.foldl]

/-- Closed witness for C4: the general `recordShot` spec instantiated at the
two-hit sequence 250 ms, 350 ms. -/
theorem c4_witness :
    (applyShots blankStats [(true, 250), (true, 350)]).shots = 2 ∧
    (applyShots blankStats [(true, 250), (true, 350)]).reactionTimes
      = validTimes [(true, 250), (true, 350)] ∧
    (applyShots blankStats [(true, 250), (true, 350)]).avgReaction
      = listMean (validTimes [(true, 250), (true, 350)]) ∧
    (applyShots blankStats [(true, 250), (true, 350)]).consistencySq
      = popVariance (validTimes [(true, 250), (true, 350)]) := by
  have h := c4_record_shot.1 [(true, 250), (true, 350)]
  have hvt : validTimes [(true, 250), (true, 350)] = [250, 350] := by
    norm_num [validTimes, List.filterMap]
  refine ⟨h.1, h.2.2.1, h.2.2.2.2.1 ?_, h.2.2.2.2.2.1 ?_⟩ <;>
    rw [hvt] <;> simp

/-! ## Flick preset respawn (`Game._handleRespawns` / `_spawnFlickTarget`,
src/game.js lines 141–153 and 339–345)

The flick branch of `_handleRespawns` reads `this.targets[0]` and
`this._presetSpawnWait` only; they form the `FlickGame` state here.
`_spawnFlickTarget` draws `angle = random·2π`, `x = cos(angle)·spawnRadius`
and `d = distances[floor(random·4)]`; the drawn `x` (cosine is
transcendental) and the distance index are passed in explicitly. -/

structure FlickGame where
  targets : List Target
  presetSpawnWait : ℚ
deriving DecidableEq

/-- `Game._spawnFlickTarget()`: one fresh static target at the drawn
horizontal position `x` and pool distance `FLICK_DISTANCES[i]`. -/
def spawnFlickTarget (x : ℚ) (i : Fin 4) : Target :=
  mkTarget x 0 (FLICK_DISTANCES.get ⟨i.1, by norm_num [FLICK_DISTANCES]⟩) .static 0 1

/-- `startPreset('flick')` (src/game.js lines 273–293): clears the target
list, spawns the first flick target, and sets `_presetSpawnWait = 0`. -/
def startFlick (x : ℚ) (i : Fin 4) : FlickGame :=
  { targets := [spawnFlickTarget x i], presetSpawnWait := 0 }

/-- `!t || (t.isFalling && t.fallAngle <= -88)` for `t = this.targets[0]`. -/
def flickNeedsRespawn (g : FlickGame) : Prop :=
  match g.targets.head? with
  | none => True
  | some t => t.isFalling = true ∧ t.fallAngle ≤ -88

instance : DecidablePred flickNeedsRespawn := fun g =>
  match h : g.targets.head? with
  | none => isTrue (by unfold flickNeedsRespawn; rw [h]; trivial)
  | some t => by
      unfold flickNeedsRespawn
      rw [h]
      exact inferInstanceAs (Decidable (t.isFalling = true ∧ t.fallAngle ≤ -88))

/-- The flick branch of `Game._handleRespawns(dt)` (src/game.js lines
142–153): while the single target is down (or absent), count the spawn delay
down by `dt`; once it reaches 0, replace the target list with one fresh
target and re-arm the delay to `spawnDelayS`. -/
def handleRespawnsFlick (g : FlickGame) (dt x : ℚ) (i : Fin 4) : FlickGame :=
  if flickNeedsRespawn g then
    if g.presetSpawnWait - dt ≤ 0 then
      { targets := [spawnFlickTarget x i], presetSpawnWait := FLICK_SPAWN_DELAY_S }
    else { g with presetSpawnWait := g.presetSpawnWait - dt }
  else g

/-- `_handleRespawns` iterated over a list of frame deltas (the spawn draws
`x`, `i` are only consumed by the tick that actually spawns). -/
def runFlick (g : FlickGame) (dts : List ℚ) (x : ℚ) (i : Fin 4) : FlickGame :=
  dts.foldl (fun g dt => handleRespawnsFlick g dt x i) g

/-- The concrete fallen target of the C8 counterexample: a flick-preset
target hit dead-centre at `t = 0` and ticked once with `dt = 1` s, after
which `fallAngle = -90 ≤ -88`. -/
def exFallen : Target := (((spawnFlickTarget 0 0).onHit true 0).1).update 1 1000

theorem exFallen_eval :
    exFallen.isFalling = true ∧ exFallen.fallAngle = -90 := by
  constructor <;>
    norm_num [exFallen, spawnFlickTarget, mkTarget, Target.onHit, Target.update,
      Target.updateFall, Target.flashDecay, jsMax, FLICK_DISTANCES, TARGET_FALL_ACCEL,
      TARGET_BASE_SIZE, TARGET_MICRO_SIZE, List.get]

/-- C8 (counterexample): `startPreset('flick')` initialises
`_presetSpawnWait = 0`, so the first respawn after a fall is immediate: with
the fallen target and the preset-start wait of 0, a single 10 ms tick already
replaces the target, although 0.01 s < `spawnDelayS` = 0.3 s has elapsed
since the fall completed. -/
theorem c8_counterexample :
    (startFlick 0 0).presetSpawnWait = 0 ∧
    exFallen.isFalling = true ∧ exFallen.fallAngle ≤ -88 ∧
    (handleRespawnsFlick ⟨[exFallen], 0⟩ (1/100) 0 1).targets = [spawnFlickTarget 0 1] ∧
    (spawnFlickTarget 0 1).isFalling = false ∧
    ((1 : ℚ)/100) < FLICK_SPAWN_DELAY_S := by
  obtain ⟨h1, h2⟩ := exFallen_eval
  refine ⟨rfl, h1, by rw [h2]; norm_num, ?_, rfl, by norm_num [FLICK_SPAWN_DELAY_S]⟩
  unfold handleRespawnsFlick
  rw [if_pos, if_pos (by norm_num)]
  unfold flickNeedsRespawn
  simp only [List.head?]
  exact ⟨h1, by rw [h2]; norm_num⟩

/-- C8 (amended): after a handler respawn the delay is re-armed to
`spawnDelayS = 0.3` and a subsequent fall waits out the full delay: while the
target is down, ticks only count the delay down and never spawn before it
reaches 0; the tick on which it does reach 0 replaces the target list with
exactly one fresh target whose distance comes from the preset's pool.
`startPreset('flick')` however initialises the delay counter to 0, so the
first replacement after preset start happens on the first tick after the
fall, without the 0.3 s wait. -/
theorem c8_flick_respawn :
    (∀ (g : FlickGame) (dt x : ℚ) (i : Fin 4), flickNeedsRespawn g →
       0 < g.presetSpawnWait - dt →
       (handleRespawnsFlick g dt x i).targets = g.targets ∧
       (handleRespawnsFlick g dt x i).presetSpawnWait = g.presetSpawnWait - dt) ∧
    (∀ (g : FlickGame) (dt x : ℚ) (i : Fin 4), flickNeedsRespawn g →
       g.presetSpawnWait - dt ≤ 0 →
       (handleRespawnsFlick g dt x i).targets = [spawnFlickTarget x i] ∧
       (handleRespawnsFlick g dt x i).targets.length = 1 ∧
       (handleRespawnsFlick g dt x i).presetSpawnWait = FLICK_SPAWN_DELAY_S ∧
       (spawnFlickTarget x i).isFalling = false ∧
       (spawnFlickTarget x i).distance ∈ FLICK_DISTANCES) ∧
    (∀ (g : FlickGame) (dt x : ℚ) (i : Fin 4), ¬ flickNeedsRespawn g →
       handleRespawnsFlick g dt x i = g) ∧
    (∀ (g : FlickGame) (dts : List ℚ) (x : ℚ) (i : Fin 4), flickNeedsRespawn g →
       (∀ d ∈ dts, 0 ≤ d) → dts.sum < g.presetSpawnWait →
       (runFlick g dts x i).targets = g.targets ∧
       (runFlick g dts x i).presetSpawnWait = g.presetSpawnWait - dts.sum) ∧
    (∀ (x : ℚ) (i : Fin 4), (startFlick x i).presetSpawnWait = 0) := by
  have hwait : ∀ (g : FlickGame) (dt x : ℚ) (i : Fin 4), flickNeedsRespawn g →
      0 < g.presetSpawnWait - dt →
      (handleRespawnsFlick g dt x i).targets = g.targets ∧
      (handleRespawnsFlick g dt x i).presetSpawnWait = g.presetSpawnWait - dt := by
    intro g dt x i hneed hpos
    unfold handleRespawnsFlick
    rw [if_pos hneed, if_neg (by linarith)]
    exact ⟨rfl, rfl⟩
  refine ⟨hwait, ?_, ?_, ?_, fun x i => rfl⟩
  · intro g dt x i hneed hle
    unfold handleRespawnsFlick
    rw [if_pos hneed, if_pos hle]
    refine ⟨rfl, rfl, rfl, rfl, ?_⟩
    have hd : (spawnFlickTarget x i).distance
        = FLICK_DISTANCES.get ⟨i.1, by norm_num [FLICK_DISTANCES]⟩ := rfl
    rw [hd]
    exact List.get_mem _ _ _
  · intro g dt x i hneed
    unfold handleRespawnsFlick
    rw [if_neg hneed]
  · intro g dts x i hneed hnn hsum
    induction dts generalizing g with
    | nil =>
        refine ⟨rfl, ?_⟩
        simp [runFlick]
    | cons d rest ih =>
        have hd : 0 ≤ d := hnn d (by simp)
        have hsum' : d + rest.sum < g.presetSpawnWait := by
          simpa [List.sum_cons] using hsum
        have hrsum : 0 ≤ rest.sum := List.sum_nonneg (fun x hx => hnn x (by simp [hx]))
        have hpos : 0 < g.presetSpawnWait - d := by linarith
        obtain ⟨ht, hw⟩ := hwait g d x i hneed hpos
        have hneed' : flickNeedsRespawn (handleRespawnsFlick g d x i) := by
          unfold flickNeedsRespawn at hneed ⊢
          rw [ht]
          exact hneed
        have ih' := ih (handleRespawnsFlick g d x i) hneed'
          (fun y hy => hnn y (by simp [hy])) (by rw [hw]; linarith)
        unfold runFlick at ih' ⊢
        rw [List.foldl_cons]
        refine ⟨by rw [ih'.1, ht], ?_⟩
        rw [ih'.2, hw]
        simp [List.sum_cons]
        ring

/-- Closed witness for C8's amended theorem: with the re-armed delay of
0.3 s and the target down, two 0.1 s ticks (0.2 s < 0.3 s) do not respawn
and leave 0.1 s of delay. -/
theorem c8_witness :
    (runFlick ⟨[exFallen], 3/10⟩ [1/10, 1/10] 0 2).targets = [exFallen] ∧
    (runFlick ⟨[exFallen], 3/10⟩ [1/10, 1/10] 0 2).presetSpawnWait
      = (3/10 : ℚ) - ([1/10, 1/10] : List ℚ).sum :=
  c8_flick_respawn.2.2.2.1 ⟨[exFallen], 3/10⟩ [1/10, 1/10] 0 2
    (by
      unfold flickNeedsRespawn
      simp only [List.head?]
      exact ⟨exFallen_eval.1, by rw [exFallen_eval.2]; norm_num⟩)
    (by intro d hd; fin_cases hd <;> norm_num)
    (by norm_num)
